import Mathlib

/-!
Verification of the costomenu-data-analysis dashboard against its
natural-language specification.

The dashboard components under `src/components/dashboard` are embedded as
pure Lean functions over a `User` record; JS numbers carrying monetary
amounts are modelled as rationals, and JS `Date` instants at day
resolution on a single linear day-count axis.  The reconciliation engine
(identity matcher, health classifier, cohort aggregator) is not part of the
source snapshot; those parts are modelled from the specification text and
are marked `Modelled from the spec:` below.
-/

namespace CostoMenu

/-- Day count of a civil (proleptic Gregorian) date with `m` in `1..12`;
day `0` is 1970-01-01.  Standard days-from-civil computation, used as the
linear axis on which JS `Date` values are compared. -/
def daysFromCivil (y m d : Int) : Int :=
  let y' := if m ≤ 2 then y - 1 else y
  let era := y'.fdiv 400
  let yoe := y' - era * 400
  let mp := (m + 9).emod 12
  let doy := (153 * mp + 2).fdiv 5 + d - 1
  let doe := yoe * 365 + yoe.fdiv 4 - yoe.fdiv 100 + doy
  era * 146097 + doe - 719468

/-- Model of the instant produced by JS `new Date(year, monthIndex, day)`,
at day resolution: month indices and days may lie outside their canonical
ranges and are normalised by carrying, and years `0..99` map to
`1900..1999` exactly as the JS constructor does. -/
def jsDateValue (y mIdx d : Int) : Int :=
  let y' := if 0 ≤ y ∧ y ≤ 99 then y + 1900 else y
  let tm := y' * 12 + mIdx
  daysFromCivil (tm.fdiv 12) (tm.emod 12 + 1) 1 + (d - 1)

/-- Model of JS `String.prototype.split` with a one-character separator:
splits at every occurrence and keeps empty pieces. -/
def jsSplit (sep : Char) : List Char → List (List Char)
  | [] => [[]]
  | c :: cs =>
    let r := jsSplit sep cs
    if c = sep then [] :: r
    else
      match r with
      | [] => [[c]]
      | p :: ps => (c :: p) :: ps

/-- Value of the longest leading run of decimal digits; `none` when the
run is empty. -/
def leadingNat (cs : List Char) : Option Nat :=
  let ds := cs.takeWhile Char.isDigit
  if ds.isEmpty then none
  else some (ds.foldl (fun a c => a * 10 + (c.toNat - 48)) 0)

/-- Model of JS `parseInt` in radix 10: skip leading whitespace, read an
optional sign, then the value of the leading digit run; `none` models
`NaN`. -/
def jsParseInt (cs : List Char) : Option Int :=
  match cs.dropWhile Char.isWhitespace with
  | '-' :: rest => (leadingNat rest).map (fun n => -(n : Int))
  | '+' :: rest => (leadingNat rest).map (fun n => (n : Int))
  | rest => (leadingNat rest).map (fun n => (n : Int))

/-- ASCII model of JS `toLowerCase`. -/
def jsToLower (s : String) : String := ⟨s.data.map Char.toLower⟩

/-- The dashboard's user row, as consumed by the components under
`src/components/dashboard`.  The defining module `@/lib/data` is not part
of the source snapshot, so the fields are exactly the ones the components
read.  `LastActivityDate` (a day count, `none` when absent) is modelled
from the spec's data model (`last_activity_date`, section 3); no
revenue-view computation reads it. -/
structure User where
  UserID : Nat
  Fullname : String
  Company : String
  LicenseType : String
  Status : String
  ExpirationDate : String
  TotalPayments : ℚ
  RecipeCount : Nat
  DistributorCount : Nat
  LastActivityDate : Option Int
  deriving DecidableEq

/-- `isExpired` from `RevenueView.tsx`: the string is `DD/MM/YYYY` or
empty; an empty string or one that does not split into exactly three
`/`-parts yields `false`; otherwise the parts are read with `parseInt`
and `new Date(year, month - 1, day)` is compared strictly against `today`
(an instant on the `jsDateValue` axis).  When some part has no parseable
leading integer the JS date is invalid and the comparison yields `false`. -/
def isExpired (dateStr : String) (today : Int) : Bool :=
  if dateStr = "" then false
  else
    let parts := jsSplit '/' dateStr.data
    if parts.length ≠ 3 then false
    else
      match jsParseInt (parts.getD 2 []), jsParseInt (parts.getD 1 []),
          jsParseInt (parts.getD 0 []) with
      | some y, some m, some d => decide (jsDateValue y (m - 1) d < today)
      | _, _, _ => false

/-- The zombie test of `RevenueView.tsx`:
`user.Status === "ACTIVE" && isExpired(user.ExpirationDate)`. -/
def isZombie (today : Int) (u : User) : Bool :=
  decide (u.Status = "ACTIVE") && isExpired u.ExpirationDate today

/-- Accumulator of the `data.forEach` pass in `RevenueView.tsx`. -/
structure RevStats where
  totalPayments : ℚ
  userCount : Nat
  churnRevenue : ℚ
  zombieUsers : List User
  deriving DecidableEq

/-- One iteration of the `forEach` body in `RevenueView.tsx`. -/
def revStep (today : Int) (s : RevStats) (u : User) : RevStats :=
  let s1 : RevStats :=
    { s with
      totalPayments := s.totalPayments + u.TotalPayments
      userCount := if 0 < u.TotalPayments then s.userCount + 1 else s.userCount }
  if isZombie today u then
    { s1 with
      zombieUsers := s1.zombieUsers ++ [u]
      churnRevenue := s1.churnRevenue + u.TotalPayments }
  else s1

/-- The whole `forEach` pass of `RevenueView.tsx`. -/
def processUsers (users : List User) (today : Int) : RevStats :=
  users.foldl (revStep today) ⟨0, 0, 0, []⟩

/-- The JS stable sort with comparator
`(a, b) => b.TotalPayments - a.TotalPayments` (payments descending);
a stable sort under a total preorder is unique, so it is modelled by a
stable insertion sort. -/
def sortByPaymentsDesc (users : List User) : List User :=
  List.insertionSort (fun a b => b.TotalPayments ≤ a.TotalPayments) users

/-- The record returned by the `useMemo` of `RevenueView.tsx`. -/
structure RevenueOutput where
  totalARR : ℚ
  arpu : ℚ
  potentialChurn : ℚ
  zombies : List User
  topRevenueUsers : List User
  deriving DecidableEq

/-- The `useMemo` computation of `RevenueView.tsx`. -/
def revenueView (users : List User) (today : Int) : RevenueOutput :=
  let s := processUsers users today
  { totalARR := s.totalPayments
    arpu := if 0 < s.userCount then s.totalPayments / (s.userCount : ℚ) else 0
    potentialChurn := s.churnRevenue
    zombies := s.zombieUsers
    topRevenueUsers := (sortByPaymentsDesc users).take 10 }

/-- Modelled from the spec: the tier test of health rule 1 — the engine's
classifier is not in the source snapshot; a dashboard licence string is
"known" when it names one of the three segments (section 4.3). -/
def dashTierKnown (u : User) : Bool :=
  decide (jsToLower u.LicenseType ∈ (["beginner", "professional", "expert"] : List String))

/-- Modelled from the spec: the default dormancy threshold in days
(section 4.3, rule 2). -/
def dormancyThreshold : Int := 30

/-- Modelled from the spec: health rule 1 — absent `last_activity_date`
with a known licence tier (section 4.3, priority 1); the classifier itself
is not in the source snapshot. -/
def hrAbsentActivity (u : User) : Bool :=
  u.LastActivityDate.isNone && dashTierKnown u

/-- Modelled from the spec: health rule 2 — active licence with activity
staler than the dormancy threshold (section 4.3, priority 2); the
classifier itself is not in the source snapshot. -/
def hrDormancyStale (today : Int) (u : User) : Bool :=
  decide (u.Status = "ACTIVE") &&
    (match u.LastActivityDate with
     | some d => decide (dormancyThreshold < today - d)
     | none => false)

/-- The win-back candidate list from `WinBackView.tsx`: Beginner licence
(compared lower-cased) with strictly positive `TotalPayments`, sorted by
payments descending. -/
def winBackUsers (users : List User) : List User :=
  sortByPaymentsDesc (users.filter (fun u =>
    decide (jsToLower u.LicenseType = "beginner" ∧ 0 < u.TotalPayments)))

/-- The recipe ceiling hard-coded in `WinBackView.tsx`
(`user.RecipeCount > 20`). -/
def upsellCeiling : Nat := 20

/-- `isUpsellTarget` from `WinBackView.tsx`. -/
def isUpsellTarget (u : User) : Bool :=
  decide (upsellCeiling < u.RecipeCount)

/-- One point of the `MaturityScatterPlot` chart data. -/
structure MaturityPoint where
  x : Nat
  y : Nat
  name : String
  company : String
  license : String
  z : Nat
  deriving DecidableEq

/-- The `useMemo` of `MaturityScatterPlot.tsx`. -/
def maturityData (users : List User) : List MaturityPoint :=
  users.map (fun u =>
    ⟨u.RecipeCount, u.DistributorCount, u.Fullname, u.Company, u.LicenseType, 1⟩)

/-- One entry of the `ParetoChart` chart data. -/
structure ParetoEntry where
  name : String
  revenue : ℚ
  cumulativePercentage : ℚ
  full_name : String
  deriving DecidableEq

/-- The sorted-and-filtered list of `ParetoChart.tsx`: payments
descending, then only strictly positive payments. -/
def paretoSorted (users : List User) : List User :=
  (sortByPaymentsDesc users).filter (fun u => decide (0 < u.TotalPayments))

/-- The `reduce` computing `totalRevenue` in `ParetoChart.tsx`. -/
def totalRevenueOf (l : List User) : ℚ :=
  l.foldl (fun sum u => sum + u.TotalPayments) 0

/-- The `map` over the top-30 slice in `ParetoChart.tsx`, the mutable
`cumulative` accumulator made explicit. -/
def paretoGo (total : ℚ) (acc : ℚ) : List User → List ParetoEntry
  | [] => []
  | u :: us =>
    let c := acc + u.TotalPayments
    { name := ⟨(jsSplit ' ' u.Fullname.data).getD 0 []⟩
      revenue := u.TotalPayments
      cumulativePercentage := c / total * 100
      full_name := u.Fullname } :: paretoGo total c us

/-- The `useMemo` of `ParetoChart.tsx`. -/
def paretoData (users : List User) : List ParetoEntry :=
  let sorted := paretoSorted users
  paretoGo (totalRevenueOf sorted) 0 (sorted.take 30)

/-- Adjacent-pair non-decreasing check on a list of rationals. -/
def chainLE : List ℚ → Bool
  | [] => true
  | [_] => true
  | a :: b :: t => decide (a ≤ b) && chainLE (b :: t)

/-- All derived dashboard outputs as one pure function of the data set and
the current date. -/
structure PipelineOutput where
  revenue : RevenueOutput
  winBack : List User
  pareto : List ParetoEntry
  maturity : List MaturityPoint
  deriving DecidableEq

/-- One full run of the dashboard computations. -/
def runPipeline (users : List User) (today : Int) : PipelineOutput :=
  { revenue := revenueView users today
    winBack := winBackUsers users
    pareto := paretoData users
    maturity := maturityData users }

/-- Whether a `/`-part of an expiration string is a pure decimal numeral;
used to state the fail-closed claim's "non-numeric part" condition. -/
def isNumericPart (p : List Char) : Bool :=
  !p.isEmpty && p.all Char.isDigit

/-- Whether the expiration string has a part that is not a pure numeral. -/
def hasNonNumericPart (s : String) : Bool :=
  (jsSplit '/' s.data).any (fun p => ! isNumericPart p)

/-- Modelled from the spec: a calendar date of the reconciliation engine's
data model (section 3); the engine itself is not in the source snapshot. -/
structure CalDate where
  year : Int
  month : Int
  day : Int
  deriving DecidableEq

/-- Day count of a calendar date. -/
def CalDate.toDay (d : CalDate) : Int := daysFromCivil d.year d.month d.day

/-- Calendar-month index (the year-month bucket of a date). -/
def CalDate.monthIdx (d : CalDate) : Int := d.year * 12 + (d.month - 1)

/-- Modelled from the spec: licence-tier enumeration (section 3). -/
inductive LicenseTier
  | Beginner
  | Professional
  | Expert
  | Unknown
  deriving DecidableEq

/-- Modelled from the spec: licence-status enumeration (section 3). -/
inductive LicenseStatus
  | Active
  | Expired
  | Unknown
  deriving DecidableEq

/-- Modelled from the spec: derived health-state enumeration (section 3). -/
inductive HealthState
  | Active
  | Dormant
  | AtRisk
  | Unknown
  deriving DecidableEq

/-- Modelled from the spec: the segment-specific diagnostic reason codes
attached by health rule 1 (section 4.3). -/
inductive DiagCode
  | dormantAbandoned
  | blindSpot
  | criticalBlank
  deriving DecidableEq

/-- Modelled from the spec: the canonical `UserRecord` of the
reconciliation engine (section 3); the engine is not in the source
snapshot. -/
structure UserRecord where
  user_id : Nat
  full_name : String
  email : Option String
  company : String
  license_tier : LicenseTier
  license_status : LicenseStatus
  registration_date : Option CalDate
  last_activity_date : Option CalDate
  expiration_date : Option CalDate
  recipes : Nat
  ingredients : Nat
  menus : Nat
  distributors : Nat
  total_payments : ℚ
  deriving DecidableEq

/-- Modelled from the spec: transaction status enumeration (section 3). -/
inductive TxStatus
  | paid
  | failed
  | pending
  deriving DecidableEq

/-- Modelled from the spec: a `TransactionRecord` before matching
(section 3); the matcher is not in the source snapshot. -/
structure Tx where
  tx_date : Option CalDate
  payer_email : String
  payer_name_free_text : String
  amount : ℚ
  status : TxStatus
  deriving DecidableEq

/-- Modelled from the spec: match-confidence tiers (section 4.2). -/
inductive Confidence
  | certain
  | high
  | medium
  deriving DecidableEq

/-- Modelled from the spec: the outcome of matching one transaction
(section 4.2); `audit` marks matches retained only for audit. -/
inductive MatchOutcome
  | matched (uid : Nat) (conf : Confidence) (audit : Bool)
  | ambiguous
  | unmatched
  deriving DecidableEq

/-- Whitespace trim on both ends of a character list. -/
def trimWs (cs : List Char) : List Char :=
  ((cs.dropWhile Char.isWhitespace).reverse.dropWhile Char.isWhitespace).reverse

/-- Modelled from the spec: case/whitespace email normalisation used by
matching pass 1 (section 4.2). -/
def normEmail (s : String) : String :=
  ⟨trimWs (s.data.map Char.toLower)⟩

/-- The pass-1 candidate set: users whose normalised email equals the
transaction's normalised payer email. -/
def emailCandidates (users : List UserRecord) (t : Tx) : List UserRecord :=
  users.filter (fun u =>
    match u.email with
    | some e => decide (normEmail e = normEmail t.payer_email)
    | none => false)

/-- Activity-recency comparison on optional dates; an absent date counts
as least recent. -/
def actLE (a b : Option CalDate) : Bool :=
  match a, b with
  | none, _ => true
  | some _, none => false
  | some x, some y => decide (x.toDay ≤ y.toDay)

/-- The candidates whose `last_activity_date` is maximal within the
candidate set. -/
def mostRecent (cs : List UserRecord) : List UserRecord :=
  cs.filter (fun u =>
    cs.all (fun v => actLE v.last_activity_date u.last_activity_date))

/-- Modelled from the spec: resolve one pass's candidate set with the
recency tie-break — a unique candidate (or a unique most-recently-active
one) matches; several equally recent candidates are ambiguous; an empty
set defers to the next pass (section 4.2). -/
def resolveTier (conf : Confidence) (audit : Bool) (cs : List UserRecord) :
    Option MatchOutcome :=
  match cs with
  | [] => none
  | [u] => some (.matched u.user_id conf audit)
  | _ =>
    match mostRecent cs with
    | [u] => some (.matched u.user_id conf audit)
    | _ => some .ambiguous

/-- Modelled from the spec: honorific tokens stripped during name
normalisation (section 4.2). -/
def honorificTokens : List (List Char) :=
  [['m', 'r'], ['m', 'r', 's'], ['m', 's'], ['d', 'r'], ['c', 'h', 'e', 'f']]

/-- Modelled from the spec: the character fold of name normalisation
(section 4.2, "strip honorifics/diacritics, fold to a canonical token
set") — lower-cases ASCII and Greek letters and strips the diacritic
marks of this data set's vocabulary: the Greek tonos and dialytika and
the common Latin accents. -/
def canonFold (c : Char) : Char :=
  match c.toLower with
  | 'ά' => 'α'
  | 'έ' => 'ε'
  | 'ή' => 'η'
  | 'ί' => 'ι'
  | 'ό' => 'ο'
  | 'ύ' => 'υ'
  | 'ώ' => 'ω'
  | 'ϊ' => 'ι'
  | 'ϋ' => 'υ'
  | 'ΐ' => 'ι'
  | 'ΰ' => 'υ'
  | 'Ά' => 'α'
  | 'Έ' => 'ε'
  | 'Ή' => 'η'
  | 'Ί' => 'ι'
  | 'Ό' => 'ο'
  | 'Ύ' => 'υ'
  | 'Ώ' => 'ω'
  | 'Ϊ' => 'ι'
  | 'Ϋ' => 'υ'
  | 'Α' => 'α'
  | 'Β' => 'β'
  | 'Γ' => 'γ'
  | 'Δ' => 'δ'
  | 'Ε' => 'ε'
  | 'Ζ' => 'ζ'
  | 'Η' => 'η'
  | 'Θ' => 'θ'
  | 'Ι' => 'ι'
  | 'Κ' => 'κ'
  | 'Λ' => 'λ'
  | 'Μ' => 'μ'
  | 'Ν' => 'ν'
  | 'Ξ' => 'ξ'
  | 'Ο' => 'ο'
  | 'Π' => 'π'
  | 'Ρ' => 'ρ'
  | 'Σ' => 'σ'
  | 'Τ' => 'τ'
  | 'Υ' => 'υ'
  | 'Φ' => 'φ'
  | 'Χ' => 'χ'
  | 'Ψ' => 'ψ'
  | 'Ω' => 'ω'
  | 'ς' => 'σ'
  | 'á' | 'à' | 'â' | 'ä' | 'ã' => 'a'
  | 'é' | 'è' | 'ê' | 'ë' => 'e'
  | 'í' | 'ì' | 'î' | 'ï' => 'i'
  | 'ó' | 'ò' | 'ô' | 'ö' | 'õ' => 'o'
  | 'ú' | 'ù' | 'û' | 'ü' => 'u'
  | 'ç' => 'c'
  | 'ñ' => 'n'
  | d => d

/-- Modelled from the spec: the canonical token set of a free-text name —
case- and diacritic-folded, split on spaces, empty pieces and honorifics
dropped (section 4.2). -/
def nameTokens (s : String) : List (List Char) :=
  ((jsSplit ' ' (s.data.map canonFold)).filter (fun t => !t.isEmpty)).filter
    (fun t => decide (t ∉ honorificTokens))

/-- Full-token-set equality of two token lists. -/
def tokenSetEq (a b : List (List Char)) : Bool :=
  a.all (fun t => decide (t ∈ b)) && b.all (fun t => decide (t ∈ a))

/-- The pass-2 candidate set: full-token-set name equality. -/
def tier2Candidates (users : List UserRecord) (t : Tx) : List UserRecord :=
  users.filter (fun u =>
    tokenSetEq (nameTokens u.full_name) (nameTokens t.payer_name_free_text))

/-- Number of tokens of `a` present in `b`. -/
def tokenOverlap (a b : List (List Char)) : Nat :=
  (a.filter (fun x => decide (x ∈ b))).length

/-- Modelled from the spec: the pass-3 token-overlap threshold
("≥ 2 of 3 name tokens", section 4.2). -/
def nameOverlapMin : Nat := 2

/-- The pass-3 candidate set: token-subset overlap above the threshold. -/
def tier3Candidates (users : List UserRecord) (t : Tx) : List UserRecord :=
  users.filter (fun u =>
    decide (nameOverlapMin ≤
      tokenOverlap (nameTokens t.payer_name_free_text) (nameTokens u.full_name)))

/-- Modelled from the spec: the strictly ordered matching passes — exact
email, normalised name, token overlap, else unmatched; a transaction
leaves consideration at the first pass with candidates (section 4.2). -/
def matchTx (users : List UserRecord) (t : Tx) : MatchOutcome :=
  match resolveTier .certain false (emailCandidates users t) with
  | some o => o
  | none =>
    match resolveTier .high false (tier2Candidates users t) with
    | some o => o
    | none =>
      match resolveTier .medium true (tier3Candidates users t) with
      | some o => o
      | none => .unmatched

/-- The `matched_user_id` field a transaction ends up with. -/
def matchedUserId (users : List UserRecord) (t : Tx) : Option Nat :=
  match matchTx users t with
  | .matched uid _ _ => some uid
  | _ => none

/-- Gross revenue: every transaction counts, matched or not. -/
def grossRevenue (txs : List Tx) : ℚ :=
  (txs.map (fun t => t.amount)).sum

/-- Per-user matched revenue: the amounts of exactly the transactions
whose `matched_user_id` is the given user id. -/
def perUserTotal (users : List UserRecord) (txs : List Tx) (uid : Nat) : ℚ :=
  ((txs.filter (fun t => decide (matchedUserId users t = some uid))).map
    (fun t => t.amount)).sum

/-- The first half of the matching claim exactly as stated: every
transaction with an exact (normalised) email match to some user record
gets a set `matched_user_id`. -/
def exactMatchAlwaysMatched : Prop :=
  ∀ (users : List UserRecord) (t : Tx),
    (∃ u ∈ users, ∃ e, u.email = some e ∧ normEmail e = normEmail t.payer_email) →
    ∃ uid, matchedUserId users t = some uid

/-- Modelled from the spec: the segment→diagnostic lookup table of health
rule 1 (sections 4.3 and 9). -/
def segmentDiag : LicenseTier → Option DiagCode
  | .Beginner => some .dormantAbandoned
  | .Professional => some .blindSpot
  | .Expert => some .criticalBlank
  | .Unknown => none

/-- Modelled from the spec: health rule 1 — `last_activity_date` absent
and licence tier known (section 4.3, priority 1). -/
def healthRule1 (u : UserRecord) : Bool :=
  u.last_activity_date.isNone && decide (u.license_tier ≠ .Unknown)

/-- Days elapsed since the last activity, when one is recorded. -/
def daysSinceActivity (today : Int) (u : UserRecord) : Option Int :=
  u.last_activity_date.map (fun d => today - d.toDay)

/-- Modelled from the spec: health rule 2 — active licence, activity
staler than the dormancy threshold (section 4.3, priority 2). -/
def healthRule2 (today dorm : Int) (u : UserRecord) : Bool :=
  decide (u.license_status = .Active) &&
    (match daysSinceActivity today u with
     | some n => decide (dorm < n)
     | none => false)

/-- Modelled from the spec: health rule 3 — active licence past its
expiration date, the zombie case (section 4.3, priority 3). -/
def healthRule3 (today : Int) (u : UserRecord) : Bool :=
  decide (u.license_status = .Active) &&
    (match u.expiration_date with
     | some e => decide (e.toDay < today)
     | none => false)

/-- Modelled from the spec: health rule 4 — expired licence, or activity
stale beyond the longer threshold (section 4.3, priority 4). -/
def healthRule4 (today longT : Int) (u : UserRecord) : Bool :=
  decide (u.license_status = .Expired) ||
    (match daysSinceActivity today u with
     | some n => decide (longT < n)
     | none => false)

/-- Modelled from the spec: the priority-ordered health classifier
(section 4.3); yields the health state and, for rule 1, the segment
diagnostic code. -/
def classifyHealth (today dorm longT : Int) (u : UserRecord) :
    HealthState × Option DiagCode :=
  if healthRule1 u then (.Unknown, segmentDiag u.license_tier)
  else if healthRule2 today dorm u then (.AtRisk, none)
  else if healthRule3 today u then (.AtRisk, none)
  else if healthRule4 today longT u then (.Dormant, none)
  else (.Active, none)

/-- The five classification rules read as a relation between a record and
the health state some rule yields for it, each rule guarded by the failure
of every higher-priority rule, exactly as the spec's else-chain
prescribes (section 4.3). -/
def assignsHealth (today dorm longT : Int) (u : UserRecord) (h : HealthState) : Prop :=
  (healthRule1 u = true ∧ h = .Unknown) ∨
  (healthRule1 u = false ∧ healthRule2 today dorm u = true ∧ h = .AtRisk) ∨
  (healthRule1 u = false ∧ healthRule2 today dorm u = false ∧
    healthRule3 today u = true ∧ h = .AtRisk) ∨
  (healthRule1 u = false ∧ healthRule2 today dorm u = false ∧
    healthRule3 today u = false ∧ healthRule4 today longT u = true ∧ h = .Dormant) ∨
  (healthRule1 u = false ∧ healthRule2 today dorm u = false ∧
    healthRule3 today u = false ∧ healthRule4 today longT u = false ∧ h = .Active)

/-- Modelled from the spec: the cohort bucket of a user — the calendar
month of registration; `none` is the "cohort-unknown" case (section 4.4). -/
def cohortOf (u : UserRecord) : Option Int :=
  u.registration_date.map (fun d => d.monthIdx)

/-- The members of the cohort with the given month index. -/
def cohortMembers (users : List UserRecord) (p : Int) : List UserRecord :=
  users.filter (fun u => decide (cohortOf u = some p))

/-- Modelled from the spec: activity of a cohort member at month offset
`k` — the member's `last_activity_date` falls within calendar month
`p + k` (sections 3 and 4.4). -/
def activeAtOffset (p k : Int) (u : UserRecord) : Bool :=
  match u.last_activity_date with
  | some d => decide (d.monthIdx = p + k)
  | none => false

/-- Modelled from the spec: retention of cohort `p` at month offset `k` —
members active at offset `k` over cohort size (sections 3 and 4.4). -/
def retention (users : List UserRecord) (p k : Int) : ℚ :=
  let members := cohortMembers users p
  if members.isEmpty then 0
  else (((members.filter (activeAtOffset p k)).length : ℚ) / (members.length : ℚ))

/-- Fixed reference instant for the concrete examples: 2026-10-11. -/
def demoToday : Int := daysFromCivil 2026 10 11

/-- Demo user: nominally active, licence expired in 2020, no recorded
activity, Professional tier. -/
def dU1 : User :=
  ⟨1, "Maria P", "Taverna Alpha", "Professional", "ACTIVE", "01/01/2020",
    50, 5, 1, none⟩

/-- Demo user: paying Beginner with heavy recipe usage and no expiration
date recorded. -/
def dU2 : User :=
  ⟨2, "Nikos K", "Taverna Beta", "Beginner", "ACTIVE", "",
    30, 25, 0, some (daysFromCivil 2026 9 1)⟩

/-- Demo user: Beginner who never paid. -/
def dU3 : User :=
  ⟨3, "Eleni V", "Cafe Gamma", "Beginner", "EXPIRED", "01/01/2025",
    0, 3, 0, some (daysFromCivil 2025 1 1)⟩

/-- Demo user: active status with a malformed expiration string whose
parts carry numeric prefixes. -/
def dU8 : User :=
  ⟨8, "Anna D", "Bistro Delta", "Expert", "ACTIVE", "1a/1/2000",
    50, 0, 0, some (daysFromCivil 2026 10 1)⟩

/-- The demo data set. -/
def demoUsers : List User := [dU1, dU2, dU3]

/-- Demo record A: one of two records sharing an email, equally recent. -/
def rA : UserRecord :=
  ⟨10, "Alpha Beta", some "a@x.com", "Alpha SA", .Professional, .Active,
    some ⟨2024, 1, 10⟩, some ⟨2026, 9, 1⟩, some ⟨2027, 1, 1⟩, 4, 7, 1, 0, 50⟩

/-- Demo record B: shares `rA`'s email and activity date. -/
def rB : UserRecord :=
  ⟨11, "Gamma Delta", some "a@x.com", "Gamma SA", .Beginner, .Active,
    some ⟨2024, 2, 5⟩, some ⟨2026, 9, 1⟩, none, 1, 2, 0, 0, 0⟩

/-- Demo record E: shares `rA`'s email but is strictly less recently
active, so the recency tie-break prefers `rA`. -/
def rE : UserRecord :=
  ⟨13, "Iota Kappa", some "a@x.com", "Iota SA", .Beginner, .Active,
    some ⟨2024, 5, 1⟩, some ⟨2025, 1, 1⟩, none, 0, 0, 0, 0, 5⟩

/-- Demo record C: unique email. -/
def rC : UserRecord :=
  ⟨12, "Epsilon Zeta", some "c@x.com", "Epsilon SA", .Expert, .Active,
    some ⟨2023, 5, 1⟩, some ⟨2026, 8, 15⟩, some ⟨2027, 1, 1⟩, 30, 80, 4, 2, 200⟩

/-- Demo transaction whose payer email is shared by `rA` and `rB`. -/
def tDup : Tx := ⟨some ⟨2026, 9, 10⟩, "a@x.com", "Someone New", 20, .paid⟩

/-- Demo transaction exactly matching `rC`. -/
def tC : Tx := ⟨some ⟨2026, 9, 12⟩, "C@X.COM ", "Epsilon Zeta", 75, .paid⟩

/-- Demo transaction matching nothing at any pass. -/
def tU : Tx := ⟨some ⟨2026, 9, 13⟩, "unmatched@y.com", "Omega", 15, .paid⟩

/-- Demo record: Beginner with no recorded activity. -/
def rBeg : UserRecord :=
  ⟨20, "Beta One", some "b1@x.com", "Beta SA", .Beginner, .Active,
    some ⟨2024, 3, 1⟩, none, none, 2, 3, 1, 0, 10⟩

/-- Demo record: another Beginner with no recorded activity, every other
field different from `rBeg`. -/
def rBeg2 : UserRecord :=
  ⟨21, "Beta Two", none, "Other SA", .Beginner, .Expired,
    none, none, some ⟨2020, 1, 1⟩, 99, 0, 7, 3, 1234⟩

/-- The month index of January 2024, used as a demo cohort period. -/
def cohP : Int := 2024 * 12

/-- Demo record registered January 2024 whose last activity is March
2024. -/
def rCoh : UserRecord :=
  ⟨30, "Coh One", some "coh1@x.com", "Coh SA", .Professional, .Active,
    some ⟨2024, 1, 15⟩, some ⟨2024, 3, 10⟩, none, 5, 5, 1, 0, 40⟩

/-- Demo record registered and last active within January 2024. -/
def rCoh2 : UserRecord :=
  ⟨31, "Coh Two", some "coh2@x.com", "Coh SA", .Beginner, .Active,
    some ⟨2024, 1, 5⟩, some ⟨2024, 1, 20⟩, none, 1, 1, 0, 0, 0⟩

/-! ### Characterisation of the `RevenueView` pass -/

theorem foldl_revStep (today : Int) (l : List User) (s : RevStats) :
    l.foldl (revStep today) s =
      { totalPayments := s.totalPayments + (l.map (fun u => u.TotalPayments)).sum
        userCount := s.userCount + l.countP (fun u => decide (0 < u.TotalPayments))
        churnRevenue := s.churnRevenue +
          ((l.filter (isZombie today)).map (fun u => u.TotalPayments)).sum
        zombieUsers := s.zombieUsers ++ l.filter (isZombie today) } := by
  induction l generalizing s with
  | nil => simp
  | cons u t ih =>
    rw [List.foldl_cons, ih]
    unfold revStep
    by_cases hz : isZombie today u = true
    all_goals by_cases hp : 0 < u.TotalPayments
    all_goals simp [hz, hp, List.countP_cons, List.filter_cons, RevStats.mk.injEq]
    all_goals repeat' apply And.intro
    all_goals first | ring | omega | simp

theorem processUsers_eq (users : List User) (today : Int) :
    processUsers users today =
      ⟨(users.map (fun u => u.TotalPayments)).sum,
        users.countP (fun u => decide (0 < u.TotalPayments)),
        ((users.filter (isZombie today)).map (fun u => u.TotalPayments)).sum,
        users.filter (isZombie today)⟩ := by
  unfold processUsers
  rw [foldl_revStep]
  simp

theorem zombies_eq (users : List User) (today : Int) :
    (revenueView users today).zombies = users.filter (isZombie today) := by
  simp [revenueView, processUsers_eq]

theorem potentialChurn_eq (users : List User) (today : Int) :
    (revenueView users today).potentialChurn =
      ((users.filter (isZombie today)).map (fun u => u.TotalPayments)).sum := by
  simp [revenueView, processUsers_eq]

theorem mem_zombies (users : List User) (today : Int) (u : User) :
    u ∈ (revenueView users today).zombies ↔ (u ∈ users ∧ isZombie today u = true) := by
  rw [zombies_eq, List.mem_filter]

/-- C1: counterexample — `dU1` has no recorded activity and a known tier,
so the spec's highest-priority health rule fires for it, yet `RevenueView`
still lists it as a zombie: the zombie rule is not gated by the
higher-priority health rules. -/
theorem c1_zombie_gating_cex :
    hrAbsentActivity dU1 = true ∧ dU1 ∈ (revenueView [dU1] demoToday).zombies := by
  constructor
  · decide
  · decide

/-- C1 (amended): a user appears in the zombie list exactly when their
`Status` is `"ACTIVE"` and `isExpired` holds of their `ExpirationDate` at
the current date, and the potential-churn subtotal is the sum of
`TotalPayments` over exactly those users; the rule is applied
unconditionally — membership is not gated by the spec's higher-priority
health rules (absent activity, dormancy staleness). -/
theorem c1_zombie_list (users : List User) (today : Int) :
    (∀ u, u ∈ (revenueView users today).zombies ↔
      (u ∈ users ∧ u.Status = "ACTIVE" ∧ isExpired u.ExpirationDate today = true)) ∧
    (revenueView users today).potentialChurn =
      ((users.filter (isZombie today)).map (fun u => u.TotalPayments)).sum := by
  refine ⟨fun u => ?_, potentialChurn_eq users today⟩
  rw [mem_zombies]
  unfold isZombie
  simp [Bool.and_eq_true, decide_eq_true_eq, and_assoc]

/-- C8: counterexample — the expiration string `"1a/1/2000"` has a part
that is not a numeral, yet `parseInt` reads its numeric prefix, the date
parses as January 2000, and the nominally active `dU8` lands in the
zombie list with its `TotalPayments` in the churn subtotal. -/
theorem c8_fail_closed_cex :
    hasNonNumericPart "1a/1/2000" = true ∧
    isExpired "1a/1/2000" demoToday = true ∧
    dU8 ∈ (revenueView [dU8] demoToday).zombies ∧
    (revenueView [dU8] demoToday).potentialChurn = 50 := by
  refine ⟨by decide, by decide, by decide, ?_⟩
  rw [potentialChurn_eq]
  have hf : [dU8].filter (isZombie demoToday) = [dU8] := by decide
  rw [hf]
  simp [dU8]

theorem isExpired_part_unparseable (s : String) (t : Int) (a b c : List Char)
    (habc : jsSplit '/' s.data = [a, b, c])
    (h : jsParseInt a = none ∨ jsParseInt b = none ∨ jsParseInt c = none) :
    isExpired s t = false := by
  unfold isExpired
  by_cases hs : s = ""
  · simp [hs]
  · rw [if_neg hs]
    simp only [habc]
    rw [if_neg (by simp)]
    rcases h with h | h | h <;> simp [List.getD, h]

/-- C8 (amended): `isExpired` is total and fails closed on strings that do
not even look like dates: every input yields a boolean; the empty string,
a string without exactly three `/`-parts, and a string some part of which
has no `parseInt`-readable leading integer all give `false`, and a user
with such an expiration string is never a zombie regardless of `Status`.
(A part that merely contains non-numeric characters after a digit prefix,
such as `"1a"`, parses by its prefix and can still yield `true` — the
original claim's "contains non-numeric parts" case fails there.) -/
theorem c8_expiry_fail_closed (s : String) (t : Int) :
    (isExpired s t = true ∨ isExpired s t = false) ∧
    (s = "" → isExpired s t = false) ∧
    ((jsSplit '/' s.data).length ≠ 3 → isExpired s t = false) ∧
    ((∃ p ∈ jsSplit '/' s.data, jsParseInt p = none) → isExpired s t = false) ∧
    (∀ (users : List User) (u : User), u.ExpirationDate = s →
      isExpired s t = false →
      isZombie t u = false ∧ u ∉ (revenueView users t).zombies) := by
  refine ⟨Bool.eq_false_or_eq_true _, ?_, ?_, ?_, ?_⟩
  · intro hs
    simp [isExpired, hs]
  · intro hlen
    by_cases hs : s = ""
    · simp [isExpired, hs]
    · unfold isExpired
      rw [if_neg hs]
      simp [hlen]
  · rintro ⟨p, hp, hnone⟩
    by_cases hlen : (jsSplit '/' s.data).length = 3
    · obtain ⟨a, b, c, habc⟩ := List.length_eq_three.mp hlen
      rw [habc] at hp
      simp only [List.mem_cons, List.not_mem_nil, or_false] at hp
      apply isExpired_part_unparseable s t a b c habc
      rcases hp with rfl | rfl | rfl
      · exact Or.inl hnone
      · exact Or.inr (Or.inl hnone)
      · exact Or.inr (Or.inr hnone)
    · by_cases hs : s = ""
      · simp [isExpired, hs]
      · unfold isExpired
        rw [if_neg hs]
        simp [hlen]
  · intro users u hdate hfalse
    have hz : isZombie t u = false := by
      unfold isZombie
      rw [hdate, hfalse, Bool.and_false]
    refine ⟨hz, ?_⟩
    rw [mem_zombies]
    rintro ⟨-, hmem⟩
    rw [hz] at hmem
    exact Bool.false_ne_true hmem

/-- C8 witness: the fail-closed branches discharged at concrete strings —
empty, two parts, and a part with no leading digits. -/
theorem c8_expiry_fail_closed_witness :
    isExpired "" demoToday = false ∧
    isExpired "01/2020" demoToday = false ∧
    isExpired "aa/1/2000" demoToday = false :=
  ⟨(c8_expiry_fail_closed "" demoToday).2.1 rfl,
   (c8_expiry_fail_closed "01/2020" demoToday).2.2.1 (by decide),
   (c8_expiry_fail_closed "aa/1/2000" demoToday).2.2.2.1
     ⟨['a', 'a'], by decide, by decide⟩⟩

/-- C9: the ARPU figure is the sum of all users' `TotalPayments` divided
by the number of users with strictly positive `TotalPayments` (paying
users only), and the division is guarded: with no paying user the ARPU is
`0`. -/
theorem c9_arpu_paying_users (users : List User) (today : Int) :
    (revenueView users today).arpu =
      if 0 < users.countP (fun u => decide (0 < u.TotalPayments)) then
        (users.map (fun u => u.TotalPayments)).sum /
          (users.countP (fun u => decide (0 < u.TotalPayments)) : ℚ)
      else 0 := by
  simp [revenueView, processUsers_eq]

/-- C2: a user is in the win-back candidate list iff they are in the data
set, their licence type lower-cases to `"beginner"`, and their
`TotalPayments` is strictly positive; hence no other tier and no
zero-payment Beginner is ever listed. -/
theorem c2_winback_membership (users : List User) (u : User) :
    u ∈ winBackUsers users ↔
      (u ∈ users ∧ jsToLower u.LicenseType = "beginner" ∧ 0 < u.TotalPayments) := by
  unfold winBackUsers sortByPaymentsDesc
  rw [List.mem_insertionSort, List.mem_filter]
  simp [and_assoc]

/-- C2 witness: the paying Beginner `dU2` is listed; the zero-payment
Beginner `dU3` is not. -/
theorem c2_winback_membership_witness :
    dU2 ∈ winBackUsers demoUsers ∧ dU3 ∉ winBackUsers demoUsers :=
  ⟨(c2_winback_membership demoUsers dU2).mpr ⟨by decide, by decide, by decide⟩,
   fun h => absurd ((c2_winback_membership demoUsers dU3).mp h).2.2 (by decide)⟩

/-- C5: within the win-back list the upsell flag holds exactly when the
recipe count strictly exceeds the ceiling (20), and the flag is a function
of the recipe count alone. -/
theorem c5_upsell_flag (users : List User) :
    (∀ u, u ∈ winBackUsers users →
      (isUpsellTarget u = true ↔ upsellCeiling < u.RecipeCount)) ∧
    (∀ u v : User, u.RecipeCount = v.RecipeCount →
      isUpsellTarget u = isUpsellTarget v) := by
  constructor
  · intro u _
    simp [isUpsellTarget]
  · intro u v h
    simp [isUpsellTarget, h]

/-- C5 witness: the flag facts instantiated on the listed demo user. -/
theorem c5_upsell_flag_witness :
    (isUpsellTarget dU2 = true ↔ upsellCeiling < dU2.RecipeCount) ∧
    isUpsellTarget dU2 = isUpsellTarget dU2 :=
  ⟨(c5_upsell_flag demoUsers).1 dU2 (by decide),
   (c5_upsell_flag demoUsers).2 dU2 dU2 rfl⟩

/-- C4: the dashboard computations are a deterministic pure function of
the data set and the reference date: two runs on identical inputs produce
identical outputs. -/
theorem c4_pipeline_deterministic (d1 d2 : List User) (t1 t2 : Int)
    (hd : d1 = d2) (ht : t1 = t2) : runPipeline d1 t1 = runPipeline d2 t2 := by
  rw [hd, ht]

/-- C4 witness: the equal-input hypotheses discharged at the demo data. -/
theorem c4_pipeline_deterministic_witness :
    runPipeline demoUsers demoToday = runPipeline demoUsers demoToday :=
  c4_pipeline_deterministic demoUsers demoUsers demoToday demoToday rfl rfl

/-! ### Pareto-chart lemmas -/

theorem totalRevenueOf_eq (l : List User) :
    totalRevenueOf l = (l.map (fun u => u.TotalPayments)).sum := by
  unfold totalRevenueOf
  rw [List.sum_eq_foldl]
  exact (List.foldl_map (fun u => u.TotalPayments) (fun a b => a + b) l 0).symm

theorem paretoSorted_pos (users : List User) :
    ∀ u ∈ paretoSorted users, 0 < u.TotalPayments := by
  intro u hu
  unfold paretoSorted at hu
  rw [List.mem_filter] at hu
  simpa using hu.2

theorem paretoSorted_length (users : List User) :
    (paretoSorted users).length =
      users.countP (fun u => decide (0 < u.TotalPayments)) := by
  unfold paretoSorted sortByPaymentsDesc
  rw [← List.countP_eq_length_filter]
  exact (List.perm_insertionSort _ users).countP_eq _

theorem totalRevenueOf_paretoSorted_pos (users : List User)
    (h : paretoSorted users ≠ []) : 0 < totalRevenueOf (paretoSorted users) := by
  rw [totalRevenueOf_eq]
  cases hS : paretoSorted users with
  | nil => exact absurd hS h
  | cons w ws =>
    have hmem : ∀ x ∈ w :: ws, x ∈ paretoSorted users := by
      rw [hS]
      exact fun x hx => hx
    have hw : 0 < w.TotalPayments :=
      paretoSorted_pos users w (hmem w (List.mem_cons_self w ws))
    have hws : 0 ≤ (ws.map (fun u => u.TotalPayments)).sum := by
      apply List.sum_nonneg
      intro x hx
      rw [List.mem_map] at hx
      obtain ⟨v, hv, rfl⟩ := hx
      exact (paretoSorted_pos users v (hmem v (List.mem_cons_of_mem _ hv))).le
    rw [List.map_cons, List.sum_cons]
    linarith

theorem paretoGo_cons (total acc : ℚ) (u : User) (us : List User) :
    paretoGo total acc (u :: us) =
      { name := ⟨(jsSplit ' ' u.Fullname.data).getD 0 []⟩
        revenue := u.TotalPayments
        cumulativePercentage := (acc + u.TotalPayments) / total * 100
        full_name := u.Fullname } :: paretoGo total (acc + u.TotalPayments) us := rfl

theorem chainLE_cons_cons (a b : ℚ) (l : List ℚ) :
    chainLE (a :: b :: l) = true ↔ (a ≤ b ∧ chainLE (b :: l) = true) := by
  simp [chainLE]

theorem paretoGo_chain (total : ℚ) (ht : 0 < total) :
    ∀ (l : List User) (acc : ℚ), (∀ u ∈ l, 0 ≤ u.TotalPayments) →
      chainLE ((paretoGo total acc l).map (fun e => e.cumulativePercentage)) = true := by
  intro l
  induction l with
  | nil => intro acc _; rfl
  | cons u us ih =>
    intro acc hnn
    cases us with
    | nil => rfl
    | cons v vs =>
      rw [paretoGo_cons, paretoGo_cons, List.map_cons, List.map_cons]
      rw [chainLE_cons_cons]
      constructor
      · have hv : 0 ≤ v.TotalPayments := hnn v (by simp)
        have h1 : acc + u.TotalPayments ≤ acc + u.TotalPayments + v.TotalPayments := by
          linarith
        have h2 := mul_le_mul_of_nonneg_right h1 (le_of_lt (inv_pos.mpr ht))
        rw [div_eq_mul_inv, div_eq_mul_inv]
        exact mul_le_mul_of_nonneg_right h2 (by norm_num)
      · have hih := ih (acc + u.TotalPayments)
          (fun w hw => hnn w (List.mem_cons_of_mem _ hw))
        rw [paretoGo_cons, List.map_cons] at hih
        exact hih

theorem paretoGo_le_100 (total : ℚ) (ht : 0 < total) :
    ∀ (l : List User) (acc : ℚ),
      (∀ u ∈ l, 0 ≤ u.TotalPayments) →
      acc + (l.map (fun u => u.TotalPayments)).sum ≤ total →
      ∀ e ∈ paretoGo total acc l, e.cumulativePercentage ≤ 100 := by
  intro l
  induction l with
  | nil =>
    intro acc _ _ e he
    simp [paretoGo] at he
  | cons u us ih =>
    intro acc hnn hb e he
    rw [paretoGo_cons, List.mem_cons] at he
    rw [List.map_cons, List.sum_cons] at hb
    have hrest : 0 ≤ (us.map (fun w => w.TotalPayments)).sum := by
      apply List.sum_nonneg
      intro x hx
      rw [List.mem_map] at hx
      obtain ⟨w, hw, rfl⟩ := hx
      exact hnn w (List.mem_cons_of_mem _ hw)
    rcases he with rfl | he
    · show (acc + u.TotalPayments) / total * 100 ≤ 100
      have hle : acc + u.TotalPayments ≤ total := by linarith
      calc (acc + u.TotalPayments) / total * 100 ≤ 1 * 100 :=
            mul_le_mul_of_nonneg_right ((div_le_one ht).mpr hle) (by norm_num)
        _ = 100 := by norm_num
    · exact ih (acc + u.TotalPayments)
        (fun w hw => hnn w (List.mem_cons_of_mem _ hw)) (by linarith) e he

theorem paretoGo_getLast (total : ℚ) :
    ∀ (l : List User) (acc : ℚ) (e : ParetoEntry),
      (paretoGo total acc l).getLast? = some e →
      e.cumulativePercentage =
        (acc + (l.map (fun u => u.TotalPayments)).sum) / total * 100 := by
  intro l
  induction l with
  | nil =>
    intro acc e h
    simp [paretoGo] at h
  | cons u us ih =>
    intro acc e h
    cases us with
    | nil =>
      rw [paretoGo_cons,
        show paretoGo total (acc + u.TotalPayments) [] = [] from rfl] at h
      simp only [List.getLast?_singleton, Option.some.injEq] at h
      subst h
      show (acc + u.TotalPayments) / total * 100 =
        (acc + (List.map (fun w => w.TotalPayments) [u]).sum) / total * 100
      norm_num
    | cons v vs =>
      rw [paretoGo_cons, paretoGo_cons, List.getLast?_cons_cons] at h
      have hih := ih (acc + u.TotalPayments) e (by rw [paretoGo_cons]; exact h)
      rw [hih]
      simp only [List.map_cons, List.sum_cons]
      ring

theorem sum_take_le (l : List ℚ) (n : Nat) (h : ∀ x ∈ l, 0 ≤ x) :
    (l.take n).sum ≤ l.sum := by
  conv_rhs => rw [← List.take_append_drop n l]
  rw [List.sum_append]
  have hd : 0 ≤ (l.drop n).sum :=
    List.sum_nonneg (fun x hx => h x (List.mem_of_mem_drop hx))
  linarith

/-- C10: with all `TotalPayments` non-negative, the Pareto chart's
cumulative percentages are non-decreasing in list order and each is at
most 100; and when at most 30 users have strictly positive payments, the
last entry's cumulative percentage is exactly 100. -/
theorem c10_pareto_cumulative (users : List User)
    (hnn : ∀ u ∈ users, 0 ≤ u.TotalPayments) :
    chainLE ((paretoData users).map (fun e => e.cumulativePercentage)) = true ∧
    (∀ e ∈ paretoData users, e.cumulativePercentage ≤ 100) ∧
    (users.countP (fun u => decide (0 < u.TotalPayments)) ≤ 30 →
      ∀ e, (paretoData users).getLast? = some e → e.cumulativePercentage = 100) := by
  by_cases hS : paretoSorted users = []
  · have hempty : paretoData users = [] := by
      unfold paretoData
      rw [hS]
      rfl
    refine ⟨by rw [hempty]; rfl, ?_, ?_⟩
    · intro e he
      rw [hempty] at he
      cases he
    · intro _ e he
      rw [hempty] at he
      cases he
  · have ht : 0 < totalRevenueOf (paretoSorted users) :=
      totalRevenueOf_paretoSorted_pos users hS
    have hpos30 : ∀ u ∈ (paretoSorted users).take 30, 0 ≤ u.TotalPayments :=
      fun u hu => (paretoSorted_pos users u (List.mem_of_mem_take hu)).le
    have hTdata : paretoData users =
        paretoGo (totalRevenueOf (paretoSorted users)) 0
          ((paretoSorted users).take 30) := rfl
    refine ⟨?_, ?_, ?_⟩
    · rw [hTdata]
      exact paretoGo_chain _ ht _ 0 hpos30
    · rw [hTdata]
      apply paretoGo_le_100 _ ht _ 0 hpos30
      rw [zero_add, totalRevenueOf_eq, List.map_take]
      apply sum_take_le
      intro x hx
      rw [List.mem_map] at hx
      obtain ⟨w, hw, rfl⟩ := hx
      exact (paretoSorted_pos users w hw).le
    · intro hcount e hlast
      have hlen : (paretoSorted users).length ≤ 30 := by
        rw [paretoSorted_length]
        exact hcount
      have htake : (paretoSorted users).take 30 = paretoSorted users :=
        List.take_of_length_le hlen
      rw [hTdata, htake] at hlast
      have hl := paretoGo_getLast _ _ 0 e hlast
      rw [hl, zero_add, ← totalRevenueOf_eq, div_self (ne_of_gt ht), one_mul]

/-- C10 witness: the non-negativity hypothesis discharged on the demo
data set. -/
theorem c10_pareto_cumulative_witness :
    chainLE ((paretoData demoUsers).map (fun e => e.cumulativePercentage)) = true ∧
    (∀ e ∈ paretoData demoUsers, e.cumulativePercentage ≤ 100) ∧
    (demoUsers.countP (fun u => decide (0 < u.TotalPayments)) ≤ 30 →
      ∀ e, (paretoData demoUsers).getLast? = some e → e.cumulativePercentage = 100) :=
  c10_pareto_cumulative demoUsers (by decide)


/-! ### Identity matching (spec-modelled) -/

/-- C3: counterexample — `rA` and `rB` share the normalised payer email of
`tDup` and tie on activity recency, so the spec's tie-break marks the
transaction ambiguous: `matched_user_id` stays absent although an exact
email match exists, refuting the claim's universal first half. -/
theorem c3_exact_match_cex : ¬ exactMatchAlwaysMatched := by
  intro h
  obtain ⟨uid, huid⟩ :=
    h [rA, rB] tDup ⟨rA, by decide, "a@x.com", by decide, by decide⟩
  have hnone : matchedUserId [rA, rB] tDup = none := by decide
  rw [hnone] at huid
  exact Option.noConfusion huid

theorem actLE_refl (a : Option CalDate) : actLE a a = true := by
  cases a <;> simp [actLE]

theorem mostRecent_singleton (v : UserRecord) : mostRecent [v] = [v] := by
  simp [mostRecent, actLE_refl]

/-- C3 (amended): when the exact-email candidate set resolves uniquely
under the recency tie-break — a lone candidate, or a strictly
most-recently-active one among several — the transaction is matched with
certain confidence and its amount adds to that user's per-user total;
every transaction adds to gross revenue; and an unmatched transaction
adds to no per-user total.  (An ambiguous exact match — several records
sharing the email and tied on recency — is excluded from per-user totals,
which is what the counterexample exhibits.) -/
theorem c3_matching_totals (users : List UserRecord) (t : Tx) (rest : List Tx) :
    (∀ u, mostRecent (emailCandidates users t) = [u] →
      matchTx users t = .matched u.user_id .certain false ∧
      perUserTotal users (t :: rest) u.user_id =
        t.amount + perUserTotal users rest u.user_id) ∧
    (grossRevenue (t :: rest) = t.amount + grossRevenue rest) ∧
    (matchTx users t = .unmatched →
      ∀ uid, perUserTotal users (t :: rest) uid = perUserTotal users rest uid) := by
  refine ⟨?_, ?_, ?_⟩
  · intro u hmr
    have hm : matchTx users t = .matched u.user_id .certain false := by
      unfold matchTx
      cases hc : emailCandidates users t with
      | nil =>
        rw [hc] at hmr
        simp [mostRecent] at hmr
      | cons v vs =>
        rw [hc] at hmr
        cases vs with
        | nil =>
          rw [mostRecent_singleton v] at hmr
          simp only [List.cons.injEq, and_true] at hmr
          subst hmr
          rfl
        | cons w ws =>
          simp [resolveTier, hmr]
    refine ⟨hm, ?_⟩
    have hmid : matchedUserId users t = some u.user_id := by
      unfold matchedUserId
      rw [hm]
    unfold perUserTotal
    rw [List.filter_cons]
    simp [hmid]
  · unfold grossRevenue
    rw [List.map_cons, List.sum_cons]
  · intro hun uid
    have hmid : matchedUserId users t = none := by
      unfold matchedUserId
      rw [hun]
    unfold perUserTotal
    rw [List.filter_cons]
    simp [hmid]

/-- C3 witness: all three branches instantiated — `tC` matches the lone
candidate `rC` and adds to its per-user total; `tDup` against `rA` and
the staler `rE` resolves to `rA` by the recency tie-break and adds to
`rA`'s total; `tU` is unmatched and adds to gross revenue only. -/
theorem c3_matching_totals_witness :
    (matchTx [rC] tC = .matched rC.user_id .certain false ∧
      perUserTotal [rC] [tC] rC.user_id =
        tC.amount + perUserTotal [rC] [] rC.user_id) ∧
    (matchTx [rA, rE] tDup = .matched rA.user_id .certain false ∧
      perUserTotal [rA, rE] [tDup] rA.user_id =
        tDup.amount + perUserTotal [rA, rE] [] rA.user_id) ∧
    (grossRevenue [tU] = tU.amount + grossRevenue []) ∧
    (∀ uid, perUserTotal [rC] [tU] uid = perUserTotal [rC] [] uid) :=
  ⟨(c3_matching_totals [rC] tC []).1 rC (by decide),
   (c3_matching_totals [rA, rE] tDup []).1 rA (by decide),
   (c3_matching_totals [rC] tU []).2.1,
   (c3_matching_totals [rC] tU []).2.2 (by decide)⟩

/-! ### Health classification (spec-modelled) -/

theorem classifyHealth_assigns (today dorm longT : Int) (u : UserRecord) :
    assignsHealth today dorm longT u (classifyHealth today dorm longT u).1 := by
  unfold classifyHealth assignsHealth
  by_cases h1 : healthRule1 u = true
  all_goals by_cases h2 : healthRule2 today dorm u = true
  all_goals by_cases h3 : healthRule3 today u = true
  all_goals by_cases h4 : healthRule4 today longT u = true
  all_goals simp [h1, h2, h3, h4]

theorem assignsHealth_eq (today dorm longT : Int) (u : UserRecord) (h : HealthState)
    (ha : assignsHealth today dorm longT u h) :
    h = (classifyHealth today dorm longT u).1 := by
  unfold assignsHealth at ha
  unfold classifyHealth
  rcases ha with ⟨e1, rfl⟩ | ⟨e1, e2, rfl⟩ | ⟨e1, e2, e3, rfl⟩ |
    ⟨e1, e2, e3, e4, rfl⟩ | ⟨e1, e2, e3, e4, rfl⟩ <;> simp_all

theorem classifyHealth_unknown (today dorm longT : Int) (u : UserRecord)
    (h : (classifyHealth today dorm longT u).1 = .Unknown) :
    healthRule1 u = true ∧
      (classifyHealth today dorm longT u).2 = segmentDiag u.license_tier := by
  by_cases h1 : healthRule1 u = true
  · constructor
    · exact h1
    · unfold classifyHealth
      simp [h1]
  · exfalso
    unfold classifyHealth at h
    by_cases h2 : healthRule2 today dorm u = true
    all_goals by_cases h3 : healthRule3 today u = true
    all_goals by_cases h4 : healthRule4 today longT u = true
    all_goals simp [h1, h2, h3, h4] at h

/-- C6: health classification is total — the prioritised rules assign
every record exactly one health state — and for records classified
Unknown the diagnostic is the segment lookup alone (Beginner →
dormant/abandoned, Professional → blind-spot, Expert → critical-blank),
independent of every other field. -/
theorem c6_health_classification (today dorm longT : Int) (u v : UserRecord) :
    (∃! h : HealthState, assignsHealth today dorm longT u h) ∧
    ((classifyHealth today dorm longT u).1 = .Unknown →
      (classifyHealth today dorm longT u).2 = segmentDiag u.license_tier) ∧
    ((classifyHealth today dorm longT u).1 = .Unknown →
      (classifyHealth today dorm longT v).1 = .Unknown →
      u.license_tier = v.license_tier →
      (classifyHealth today dorm longT u).2 = (classifyHealth today dorm longT v).2) ∧
    segmentDiag .Beginner = some .dormantAbandoned ∧
    segmentDiag .Professional = some .blindSpot ∧
    segmentDiag .Expert = some .criticalBlank := by
  refine ⟨⟨(classifyHealth today dorm longT u).1,
      classifyHealth_assigns today dorm longT u,
      fun y hy => assignsHealth_eq today dorm longT u y hy⟩, ?_, ?_, rfl, rfl, rfl⟩
  · intro hu
    exact (classifyHealth_unknown today dorm longT u hu).2
  · intro hu hv htier
    rw [(classifyHealth_unknown today dorm longT u hu).2,
      (classifyHealth_unknown today dorm longT v hv).2, htier]

/-- C6 witness: the Unknown case realised — two no-activity Beginners with
every other field different receive the same diagnostic. -/
theorem c6_health_classification_witness :
    (classifyHealth demoToday 30 90 rBeg).1 = .Unknown ∧
    (classifyHealth demoToday 30 90 rBeg).2 =
      (classifyHealth demoToday 30 90 rBeg2).2 :=
  ⟨by decide,
   (c6_health_classification demoToday 30 90 rBeg rBeg2).2.2.1
     (by decide) (by decide) rfl⟩

/-! ### Cohort retention (spec-modelled) -/

/-- C7: counterexample — a one-member cohort registered January 2024 whose
member's last activity is in March 2024: the cohort is non-empty yet
retention at offset 0 is 0, not 1, because that activity does not fall
within the registration month. -/
theorem c7_retention_cex :
    cohortMembers [rCoh] cohP ≠ [] ∧ retention [rCoh] cohP 0 = 0 := by
  constructor
  · decide
  · have hm : cohortMembers [rCoh] cohP = [rCoh] := by decide
    have hf : List.filter (activeAtOffset cohP 0) [rCoh] = [] := by decide
    simp [retention, hm, hf]

/-- C7 (amended): retention at offset 0 equals 1 for every non-empty
cohort all of whose members' last activity falls within the cohort month;
the unconditional original fails because a member whose last activity lies
in a later month (or is absent) is not "active at offset 0" under the
spec's activity definition. -/
theorem c7_retention_offset0 (users : List UserRecord) (p : Int)
    (hne : cohortMembers users p ≠ [])
    (hall : ∀ u ∈ cohortMembers users p, activeAtOffset p 0 u = true) :
    retention users p 0 = 1 := by
  unfold retention
  have hfilter : (cohortMembers users p).filter (activeAtOffset p 0) =
      cohortMembers users p := List.filter_eq_self.mpr hall
  have hlen : (cohortMembers users p).length ≠ 0 :=
    fun hl => hne (List.eq_nil_of_length_eq_zero hl)
  have hempty : (cohortMembers users p).isEmpty = false := by
    cases hc : cohortMembers users p with
    | nil => exact absurd hc hne
    | cons a l => rfl
  simp only [hempty, Bool.false_eq_true, if_false, hfilter]
  exact div_self (Nat.cast_ne_zero.mpr hlen)

/-- C7 witness: the amended hypotheses discharged on a one-member cohort
registered and last active within January 2024. -/
theorem c7_retention_offset0_witness :
    cohortMembers [rCoh2] cohP ≠ [] ∧ retention [rCoh2] cohP 0 = 1 :=
  ⟨by decide, c7_retention_offset0 [rCoh2] cohP (by decide) (by decide)⟩

end CostoMenu
